import Mathlib

/-!
Verification development for the ISL translation pipeline.

The grammar reordering engine, clause splitter, clip resolver and the
realtime pipeline pieces are embedded shallowly from the Python sources
(main.py and realtime.py; the two files contain textually identical
copies of process_clause, split_clauses and english_to_isl, so one Lean
definition embeds both).  File-system and video probing effects are
abstracted as explicit function parameters.
-/

/-- Python str.upper for the ASCII strings handled by this program, written
with structural recursion so that concrete terms evaluate (the library
String.toUpper is defined through String.mapAux, whose well-founded recursion
blocks kernel reduction). -/
def String.upper (s : String) : String := ⟨s.data.map Char.toUpper⟩

/-- Python str.lower, structurally recursive; see String.upper. -/
def String.lower (s : String) : String := ⟨s.data.map Char.toLower⟩

/-- One linguistic unit as produced by the external parser.  Fields mirror
the spaCy attributes read by the code: text, lemma_, pos_, dep_, ent_type_. -/
structure TaggedToken where
  text : String
  lemma_ : String
  pos_ : String
  dep_ : String
  ent_type_ : String
deriving DecidableEq, Repr

/-- The six accumulator lists of process_clause (main.py lines 31-32). -/
structure Buckets where
  time_tokens : List String
  object_tokens : List String
  subject_tokens : List String
  verb_tokens : List String
  negation_tokens : List String
  modifiers : List String
deriving DecidableEq, Repr

/-- The modifier word list of main.py lines 37-39. -/
def MODIFIER_WORDS : List String := ["before", "after", "immediately", "now", "later"]

/-- The dependency labels of the object rule, main.py line 47. -/
def OBJECT_DEPS : List String := ["dobj", "pobj", "attr", "acomp"]

/-- Loop body of process_clause (main.py lines 34-50): the if/elif chain,
in source order, appending to the matching bucket. -/
def process_clause_step (b : Buckets) (token : TaggedToken) : Buckets :=
  if token.ent_type_ = "DATE" ∨ token.ent_type_ = "TIME" then
    { b with time_tokens := b.time_tokens ++ [token.text.upper] }
  else if (token.pos_ = "ADV" ∨ token.pos_ = "ADP") ∧ token.text.lower ∈ MODIFIER_WORDS then
    { b with modifiers := b.modifiers ++ [token.text.upper] }
  else if token.pos_ = "ADV" then
    { b with object_tokens := b.object_tokens ++ [token.text.upper] }
  else if (token.dep_ = "nsubj" ∨ token.dep_ = "nsubjpass") ∧ token.text.lower ≠ "it" then
    { b with subject_tokens := b.subject_tokens ++ [token.text.upper] }
  else if token.pos_ = "VERB" then
    { b with verb_tokens := b.verb_tokens ++ [token.lemma_.upper] }
  else if token.dep_ ∈ OBJECT_DEPS then
    { b with object_tokens := b.object_tokens ++ [token.text.upper] }
  else if token.dep_ = "neg" then
    { b with negation_tokens := b.negation_tokens ++ ["NOT"] }
  else b

/-- Bucket accumulation of process_clause over a token list. -/
def process_clause_buckets (tokens : List TaggedToken) : Buckets :=
  tokens.foldl process_clause_step ⟨[], [], [], [], [], []⟩

/-- process_clause (main.py lines 30-62, realtime.py lines 39-65): bucket the
tokens, then concatenate the buckets in the fixed output order of
main.py lines 52-55. -/
def process_clause (tokens : List TaggedToken) : List String :=
  let b := process_clause_buckets tokens
  b.time_tokens ++ b.modifiers ++ b.object_tokens ++
    b.subject_tokens ++ b.verb_tokens ++ b.negation_tokens

/-- Identifier of one of the six buckets. -/
inductive BucketId where
  | time | modif | objects | subjects | verbs | neg
deriving DecidableEq, Repr

/-- First-match reading of the if/elif chain of process_clause: which bucket
receives the token, and which string is appended.  The seven tests appear in
the exact source order of main.py lines 35-50 (note the verb test at line 45
precedes the dependency-object test at line 47). -/
def categorize (t : TaggedToken) : Option (BucketId × String) :=
  if t.ent_type_ = "DATE" ∨ t.ent_type_ = "TIME" then
    some (BucketId.time, t.text.upper)
  else if (t.pos_ = "ADV" ∨ t.pos_ = "ADP") ∧ t.text.lower ∈ MODIFIER_WORDS then
    some (BucketId.modif, t.text.upper)
  else if t.pos_ = "ADV" then
    some (BucketId.objects, t.text.upper)
  else if (t.dep_ = "nsubj" ∨ t.dep_ = "nsubjpass") ∧ t.text.lower ≠ "it" then
    some (BucketId.subjects, t.text.upper)
  else if t.pos_ = "VERB" then
    some (BucketId.verbs, t.lemma_.upper)
  else if t.dep_ ∈ OBJECT_DEPS then
    some (BucketId.objects, t.text.upper)
  else if t.dep_ = "neg" then
    some (BucketId.neg, "NOT")
  else none

/-- Strings a categorization function sends to a given bucket, in token order. -/
def bucketOfWith (cat : TaggedToken → Option (BucketId × String)) (id : BucketId)
    (tokens : List TaggedToken) : List String :=
  tokens.filterMap (fun t =>
    match cat t with
    | some p => if p.1 = id then some p.2 else none
    | none => none)

/-- Strings the implementation sends to a given bucket. -/
def bucketOf (id : BucketId) (tokens : List TaggedToken) : List String :=
  bucketOfWith categorize id tokens

/-- Contribution of one token to one bucket under a categorization function. -/
def catOneWith (cat : TaggedToken → Option (BucketId × String)) (id : BucketId)
    (t : TaggedToken) : List String :=
  match cat t with
  | some p => if p.1 = id then [p.2] else []
  | none => []

lemma bucketOfWith_nil (cat : TaggedToken → Option (BucketId × String)) (id : BucketId) :
    bucketOfWith cat id [] = [] := rfl

lemma bucketOfWith_cons (cat : TaggedToken → Option (BucketId × String)) (id : BucketId)
    (t : TaggedToken) (ts : List TaggedToken) :
    bucketOfWith cat id (t :: ts) = catOneWith cat id t ++ bucketOfWith cat id ts := by
  unfold bucketOfWith catOneWith
  cases h : cat t with
  | none => simp [List.filterMap_cons, h]
  | some p =>
    by_cases hp : p.1 = id <;> simp [List.filterMap_cons, h, hp]

/-- One step of the process_clause fold appends exactly the first-match
contribution of the token to each bucket. -/
lemma process_clause_step_eq (b : Buckets) (t : TaggedToken) :
    process_clause_step b t =
      ⟨b.time_tokens ++ catOneWith categorize BucketId.time t,
       b.object_tokens ++ catOneWith categorize BucketId.objects t,
       b.subject_tokens ++ catOneWith categorize BucketId.subjects t,
       b.verb_tokens ++ catOneWith categorize BucketId.verbs t,
       b.negation_tokens ++ catOneWith categorize BucketId.neg t,
       b.modifiers ++ catOneWith categorize BucketId.modif t⟩ := by
  unfold process_clause_step catOneWith categorize
  split_ifs <;> simp

/-- The fold of process_clause appends, bucket by bucket, exactly the strings
that the first-match categorization assigns to each bucket. -/
lemma process_clause_foldl_eq (ts : List TaggedToken) : ∀ b : Buckets,
    ts.foldl process_clause_step b =
      ⟨b.time_tokens ++ bucketOf BucketId.time ts,
       b.object_tokens ++ bucketOf BucketId.objects ts,
       b.subject_tokens ++ bucketOf BucketId.subjects ts,
       b.verb_tokens ++ bucketOf BucketId.verbs ts,
       b.negation_tokens ++ bucketOf BucketId.neg ts,
       b.modifiers ++ bucketOf BucketId.modif ts⟩ := by
  induction ts with
  | nil => intro b; simp [bucketOf, bucketOfWith]
  | cons t ts ih =>
    intro b
    rw [List.foldl_cons, process_clause_step_eq, ih]
    unfold bucketOf
    rw [bucketOfWith_cons, bucketOfWith_cons, bucketOfWith_cons,
        bucketOfWith_cons, bucketOfWith_cons, bucketOfWith_cons]
    simp [List.append_assoc]

/-- Bucket record of process_clause, characterized by first-match categorization. -/
lemma process_clause_buckets_eq (ts : List TaggedToken) :
    process_clause_buckets ts =
      ⟨bucketOf BucketId.time ts, bucketOf BucketId.objects ts,
       bucketOf BucketId.subjects ts, bucketOf BucketId.verbs ts,
       bucketOf BucketId.neg ts, bucketOf BucketId.modif ts⟩ := by
  unfold process_clause_buckets
  rw [process_clause_foldl_eq]
  simp

/-- Output of process_clause as concatenation of the six categorized buckets. -/
lemma process_clause_eq_concat (ts : List TaggedToken) :
    process_clause ts =
      bucketOf BucketId.time ts ++ bucketOf BucketId.modif ts ++
      bucketOf BucketId.objects ts ++ bucketOf BucketId.subjects ts ++
      bucketOf BucketId.verbs ts ++ bucketOf BucketId.neg ts := by
  unfold process_clause
  rw [process_clause_buckets_eq]

/-- Each token lands in at most one bucket: the six per-token contributions
together have exactly the length of the categorized-token list. -/
lemma bucket_lengths (ts : List TaggedToken) :
    (bucketOf BucketId.time ts).length + (bucketOf BucketId.modif ts).length +
    (bucketOf BucketId.objects ts).length + (bucketOf BucketId.subjects ts).length +
    (bucketOf BucketId.verbs ts).length + (bucketOf BucketId.neg ts).length =
    (ts.filterMap categorize).length := by
  induction ts with
  | nil => rfl
  | cons t ts ih =>
    unfold bucketOf at ih ⊢
    rw [bucketOfWith_cons, bucketOfWith_cons, bucketOfWith_cons,
        bucketOfWith_cons, bucketOfWith_cons, bucketOfWith_cons, List.filterMap_cons]
    cases h : categorize t with
    | none => simpa [catOneWith, h] using ih
    | some p =>
      obtain ⟨bid, s⟩ := p
      cases bid <;> simp [catOneWith, h] <;> omega

/-- Membership in one bucket list of process_clause_buckets after a single token. -/
lemma process_clause_buckets_singleton (t : TaggedToken) :
    process_clause_buckets [t] = process_clause_step ⟨[], [], [], [], [], []⟩ t := rfl

/-- The token used by the counterexamples: a direct object whose part of
speech is VERB, with surface text distinct from its lemma. -/
def tokRunning : TaggedToken := ⟨"running", "run", "VERB", "dobj", ""⟩

/-- Modelled from the words of the specification, for comparison with the
implementation: the six category tests evaluated in the order claimed there,
namely time, modifiers, objects (remaining ADV or dependency label in
OBJECT_DEPS), subjects, verbs, negation. -/
def categorize_claimed (t : TaggedToken) : Option (BucketId × String) :=
  if t.ent_type_ = "DATE" ∨ t.ent_type_ = "TIME" then
    some (BucketId.time, t.text.upper)
  else if (t.pos_ = "ADV" ∨ t.pos_ = "ADP") ∧ t.text.lower ∈ MODIFIER_WORDS then
    some (BucketId.modif, t.text.upper)
  else if t.pos_ = "ADV" ∨ t.dep_ ∈ OBJECT_DEPS then
    some (BucketId.objects, t.text.upper)
  else if (t.dep_ = "nsubj" ∨ t.dep_ = "nsubjpass") ∧ t.text.lower ≠ "it" then
    some (BucketId.subjects, t.text.upper)
  else if t.pos_ = "VERB" then
    some (BucketId.verbs, t.lemma_.upper)
  else if t.dep_ = "neg" then
    some (BucketId.neg, "NOT")
  else none

/-- Reordering following the claimed category precedence, assembled exactly
like process_clause. -/
def process_clause_claimed (ts : List TaggedToken) : List String :=
  bucketOfWith categorize_claimed BucketId.time ts ++
  bucketOfWith categorize_claimed BucketId.modif ts ++
  bucketOfWith categorize_claimed BucketId.objects ts ++
  bucketOfWith categorize_claimed BucketId.subjects ts ++
  bucketOfWith categorize_claimed BucketId.verbs ts ++
  bucketOfWith categorize_claimed BucketId.neg ts

/-- C2 counterexample: the token with dependency label dobj and part of
speech VERB is placed in the verbs bucket with its uppercased lemma, not in
the objects bucket, because the source checks the verb condition before the
dependency-object condition. -/
theorem c2_objects_verbs_counterexample :
    (process_clause_buckets [tokRunning]).object_tokens = [] ∧
    (process_clause_buckets [tokRunning]).verb_tokens = ["RUN"] := by
  constructor <;> rfl

/-- C2 (amended): tokens are evaluated in the source order time, modifiers,
ADV-objects, subjects, verbs, dependency-objects, negation, and placed in the
first matching bucket only; in particular a non-entity token whose dependency
label is in OBJECT_DEPS and whose part of speech is VERB goes to the verbs
bucket (never objects), while an ADV token that is a DATE or TIME entity goes
to the time bucket (never objects). -/
theorem process_clause_precedence :
    (∀ ts : List TaggedToken, (process_clause ts).length = (ts.filterMap categorize).length) ∧
    (∀ t : TaggedToken, ¬(t.ent_type_ = "DATE" ∨ t.ent_type_ = "TIME") →
      t.pos_ = "VERB" → t.dep_ ∈ OBJECT_DEPS →
      (process_clause_buckets [t]).verb_tokens = [t.lemma_.upper] ∧
      (process_clause_buckets [t]).object_tokens = []) ∧
    (∀ t : TaggedToken, t.pos_ = "ADV" → (t.ent_type_ = "DATE" ∨ t.ent_type_ = "TIME") →
      (process_clause_buckets [t]).time_tokens = [t.text.upper] ∧
      (process_clause_buckets [t]).object_tokens = []) := by
  refine ⟨?_, ?_, ?_⟩
  · intro ts
    rw [process_clause_eq_concat]
    have h := bucket_lengths ts
    simp only [List.length_append]
    omega
  · intro t h1 h2 h3
    have h3d : t.dep_ = "dobj" ∨ t.dep_ = "pobj" ∨ t.dep_ = "attr" ∨ t.dep_ = "acomp" := by
      simpa [OBJECT_DEPS] using h3
    rw [process_clause_buckets_singleton]
    unfold process_clause_step
    rcases h3d with h | h | h | h <;> simp [h1, h2, h]
  · intro t hADV hDT
    rw [process_clause_buckets_singleton]
    unfold process_clause_step
    simp [hDT]

/-- Closed instantiation of process_clause_precedence. -/
theorem process_clause_precedence_witness :
    (process_clause_buckets [tokRunning]).verb_tokens = ["run".upper] ∧
    (process_clause_buckets [tokRunning]).object_tokens = [] :=
  process_clause_precedence.2.1 tokRunning (by decide) rfl (by decide)

/-- C3 counterexample: on the dobj-labelled VERB token the implementation
emits the uppercased lemma from the verbs bucket, while the claimed category
precedence would emit the uppercased surface text from the objects bucket. -/
theorem c3_concat_counterexample :
    process_clause [tokRunning] = ["RUN"] ∧
    process_clause_claimed [tokRunning] = ["RUNNING"] ∧
    process_clause [tokRunning] ≠ process_clause_claimed [tokRunning] := by
  refine ⟨rfl, rfl, ?_⟩
  decide

/-- C3 (amended): process_clause returns exactly the concatenation
time ++ modifiers ++ objects ++ subjects ++ verbs ++ negation of the buckets
assigned by the first-match rules of categorize (which checks the
dependency-object condition after the verb condition), and a token matching
no rule contributes nothing to the output. -/
theorem process_clause_concat_spec :
    (∀ ts : List TaggedToken,
      process_clause ts =
        bucketOf BucketId.time ts ++ bucketOf BucketId.modif ts ++
        bucketOf BucketId.objects ts ++ bucketOf BucketId.subjects ts ++
        bucketOf BucketId.verbs ts ++ bucketOf BucketId.neg ts) ∧
    (∀ ts1 ts2 : List TaggedToken, ∀ t : TaggedToken, categorize t = none →
      process_clause (ts1 ++ t :: ts2) = process_clause (ts1 ++ ts2)) := by
  constructor
  · exact process_clause_eq_concat
  · intro ts1 ts2 t ht
    have hb : ∀ id : BucketId,
        bucketOf id (ts1 ++ t :: ts2) = bucketOf id (ts1 ++ ts2) := by
      intro id
      unfold bucketOf bucketOfWith
      simp [List.filterMap_append, List.filterMap_cons, ht]
    rw [process_clause_eq_concat, process_clause_eq_concat, hb, hb, hb, hb, hb, hb]

/-- Closed instantiation of process_clause_concat_spec. -/
theorem process_clause_concat_spec_witness :
    process_clause [tokRunning, ⟨",", ",", "PUNCT", "punct", ""⟩] =
      process_clause [tokRunning] := by
  have h := process_clause_concat_spec.2 [tokRunning] [] ⟨",", ",", "PUNCT", "punct", ""⟩ rfl
  simpa using h

/-- One token of a parsed sentence: the tagged attributes plus the index of
the syntactic head within the sentence (spaCy token.head; the root points to
itself). -/
structure SToken where
  tok : TaggedToken
  head : Nat
deriving DecidableEq, Repr

/-- Head index of the token at a position; out-of-range positions map to
themselves. -/
def head_at (doc : List SToken) (j : Nat) : Nat :=
  match doc.get? j with
  | some s => s.head
  | none => j

/-- Chain of ancestors of position j obtained by iterating head_at, cut at a
self-loop (the parse root) or when the fuel runs out. -/
def anc_chain (doc : List SToken) : Nat → Nat → List Nat
  | 0, j => [j]
  | fuel + 1, j =>
      j :: (if head_at doc j = j then [] else anc_chain doc fuel (head_at doc j))

/-- Membership of position j in the dependency subtree rooted at position i
(spaCy token.subtree: the token itself plus all its descendants): j descends
from i exactly when iterating heads from j reaches i. -/
def inSubtree (doc : List SToken) (i j : Nat) : Bool :=
  (anc_chain doc doc.length j).contains i

/-- The set of positions of the subtree rooted at position i. -/
def subtree_set (doc : List SToken) (i : Nat) : Finset Nat :=
  (Finset.range doc.length).filter (fun j => inSubtree doc i j)

/-- One claiming action of split_clauses (main.py lines 70-72 and 74-76):
add every position of the subtree to the condition set and discard it from
the main set. -/
def claim_subtree (doc : List SToken) (i : Nat) (cm : Finset Nat × Finset Nat) :
    Finset Nat × Finset Nat :=
  (cm.1 ∪ subtree_set doc i, cm.2 \ subtree_set doc i)

/-- Loop body of split_clauses (main.py lines 68-76): for the token at
position i, first the advcl rule, then the literal-if rule; the two tests are
independent ifs in the source, so both can fire for one token. -/
def split_step (doc : List SToken) (cm : Finset Nat × Finset Nat) (i : Nat) :
    Finset Nat × Finset Nat :=
  match doc.get? i with
  | none => cm
  | some s =>
      let cm1 := if s.tok.dep_ = "advcl" then claim_subtree doc i cm else cm
      if s.tok.text.lower = "if" then claim_subtree doc s.head cm1 else cm1

/-- split_clauses at the level of position sets: condition_tokens starts
empty, main_tokens starts as the whole sentence, and the loop runs over the
tokens in sentence order (main.py lines 65-78, realtime.py lines 67-78). -/
def split_clauses_sets (doc : List SToken) : Finset Nat × Finset Nat :=
  (List.range doc.length).foldl (split_step doc) (∅, Finset.range doc.length)

/-- split_clauses as returned to the caller: the two position sets listed in
ascending sentence order.  The Python source lists two hash sets here, whose
iteration order the language leaves unspecified; the embedding determinizes
that listing to sentence order. -/
def split_clauses (doc : List SToken) : List Nat × List Nat :=
  ((List.range doc.length).filter (fun j => decide (j ∈ (split_clauses_sets doc).1)),
   (List.range doc.length).filter (fun j => decide (j ∈ (split_clauses_sets doc).2)))

/-- Tokens of a sentence at the given positions. -/
def toksAt (doc : List SToken) (idxs : List Nat) : List TaggedToken :=
  idxs.filterMap (fun j => (doc.get? j).map SToken.tok)

/-- english_to_isl (main.py lines 81-93, realtime.py lines 80-86): split the
clauses, reorder each independently, and join with the literal separator when
the reordered condition clause is nonempty (Python truthiness of the list
condition_isl at line 90). -/
def english_to_isl (doc : List SToken) : List String :=
  let cm := split_clauses doc
  let condition_isl := process_clause (toksAt doc cm.1)
  let main_isl := process_clause (toksAt doc cm.2)
  if condition_isl ≠ [] then condition_isl ++ [","] ++ main_isl else main_isl

/-- The set of positions claimed for the condition clause by the token at
position i: the advcl subtree when its label is advcl, together with the
subtree of its head when its text is the literal if. -/
def claimed_set (doc : List SToken) (i : Nat) : Finset Nat :=
  match doc.get? i with
  | none => ∅
  | some s =>
      (if s.tok.dep_ = "advcl" then subtree_set doc i else ∅) ∪
      (if s.tok.text.lower = "if" then subtree_set doc s.head else ∅)

/-- Union of the claimed sets over a list of positions. -/
def claimed_union (doc : List SToken) (l : List Nat) : Finset Nat :=
  l.foldr (fun i acc => claimed_set doc i ∪ acc) ∅

lemma split_step_eq (doc : List SToken) (cm : Finset Nat × Finset Nat) (i : Nat) :
    split_step doc cm i = (cm.1 ∪ claimed_set doc i, cm.2 \ claimed_set doc i) := by
  unfold split_step claimed_set claim_subtree
  cases doc.get? i with
  | none => simp
  | some s =>
    dsimp only
    split_ifs <;>
      refine Prod.ext ?_ ?_ <;> ext j <;>
        simp [Finset.mem_union, Finset.mem_sdiff] <;> tauto

lemma claimed_union_nil (doc : List SToken) : claimed_union doc [] = ∅ := rfl

lemma claimed_union_cons (doc : List SToken) (i : Nat) (l : List Nat) :
    claimed_union doc (i :: l) = claimed_set doc i ∪ claimed_union doc l := rfl

/-- The split loop, from any start state, adds exactly the union of the
claimed sets to the condition side and removes it from the main side. -/
lemma split_foldl_eq (doc : List SToken) (l : List Nat) :
    ∀ cm : Finset Nat × Finset Nat,
      l.foldl (split_step doc) cm = (cm.1 ∪ claimed_union doc l, cm.2 \ claimed_union doc l) := by
  induction l with
  | nil => intro cm; simp [claimed_union_nil]
  | cons i l ih =>
    intro cm
    rw [List.foldl_cons, split_step_eq, ih, claimed_union_cons]
    refine Prod.ext ?_ ?_ <;> ext j <;>
      simp [Finset.mem_union, Finset.mem_sdiff] <;> tauto

lemma claimed_union_append (doc : List SToken) (l1 l2 : List Nat) :
    claimed_union doc (l1 ++ l2) = claimed_union doc l1 ∪ claimed_union doc l2 := by
  induction l1 with
  | nil => simp [claimed_union_nil, claimed_union_cons]
  | cons i l ih =>
    rw [List.cons_append, claimed_union_cons, claimed_union_cons, ih, Finset.union_assoc]

/-- The union of claimed sets does not depend on the order of the positions. -/
lemma claimed_union_perm (doc : List SToken) {l1 l2 : List Nat} (h : l1.Perm l2) :
    claimed_union doc l1 = claimed_union doc l2 := by
  induction h with
  | nil => rfl
  | cons x _ ih => rw [claimed_union_cons, claimed_union_cons, ih]
  | swap x y l =>
    rw [claimed_union_cons, claimed_union_cons, claimed_union_cons, claimed_union_cons,
        ← Finset.union_assoc, ← Finset.union_assoc, Finset.union_comm (claimed_set doc y)]
  | trans _ _ ih1 ih2 => rw [ih1, ih2]

lemma claimed_set_subset_range (doc : List SToken) (i : Nat) :
    claimed_set doc i ⊆ Finset.range doc.length := by
  unfold claimed_set
  cases doc.get? i with
  | none => simp
  | some s =>
    refine Finset.union_subset ?_ ?_ <;> split_ifs <;>
      first
      | exact Finset.filter_subset _ _
      | exact Finset.empty_subset _

lemma claimed_union_subset_range (doc : List SToken) (l : List Nat) :
    claimed_union doc l ⊆ Finset.range doc.length := by
  induction l with
  | nil => simp [claimed_union_nil]
  | cons i l ih =>
    rw [claimed_union_cons]
    exact Finset.union_subset (claimed_set_subset_range doc i) ih

/-- The reordered condition clause, as named in english_to_isl line 87. -/
def condition_isl (doc : List SToken) : List String :=
  process_clause (toksAt doc (split_clauses doc).1)

/-- The reordered main clause, as named in english_to_isl line 88. -/
def main_isl (doc : List SToken) : List String :=
  process_clause (toksAt doc (split_clauses doc).2)

lemma english_to_isl_def (doc : List SToken) :
    english_to_isl doc =
      if condition_isl doc ≠ [] then condition_isl doc ++ [","] ++ main_isl doc
      else main_isl doc := rfl

/-- Two-token sentence whose advcl subtree consists of a single token that
matches none of the bucket rules: the condition clause is nonempty but its
reordered form is empty, so no separator is emitted. -/
def docAdvclEmpty : List SToken :=
  [⟨⟨"foo", "foo", "X", "advcl", ""⟩, 1⟩,
   ⟨⟨"go", "go", "VERB", "ROOT", ""⟩, 1⟩]

/-- Sentence with an advcl condition clause: if it rains , I will stay home. -/
def docIfRain : List SToken :=
  [⟨⟨"if", "if", "SCONJ", "mark", ""⟩, 2⟩,
   ⟨⟨"it", "it", "PRON", "nsubj", ""⟩, 2⟩,
   ⟨⟨"rains", "rain", "VERB", "advcl", ""⟩, 6⟩,
   ⟨⟨",", ",", "PUNCT", "punct", ""⟩, 6⟩,
   ⟨⟨"I", "I", "PRON", "nsubj", ""⟩, 6⟩,
   ⟨⟨"will", "will", "AUX", "aux", ""⟩, 6⟩,
   ⟨⟨"stay", "stay", "VERB", "ROOT", ""⟩, 6⟩,
   ⟨⟨"home", "home", "ADV", "advmod", ""⟩, 6⟩]

/-- C1 counterexample: the condition clause returned by split_clauses is
nonempty, yet the output carries no separator at all, because the source
tests the truthiness of the reordered list condition_isl, not of the clause. -/
theorem c1_condition_clause_counterexample :
    (split_clauses docAdvclEmpty).1 ≠ [] ∧
    english_to_isl docAdvclEmpty = ["GO"] ∧
    "," ∉ english_to_isl docAdvclEmpty := by
  refine ⟨by decide, by decide, by decide⟩

/-- C1 (amended): the separator is governed by the truthiness of the
reordered condition clause: english_to_isl returns
condition_isl ++ [","] ++ main_isl when condition_isl is nonempty and
main_isl alone otherwise; when moreover neither reordered clause contains
the string "," itself, the output carries exactly one "," and it sits
exactly between the condition part and the main part. -/
theorem english_to_isl_separator :
    ∀ doc : List SToken,
      (condition_isl doc ≠ [] →
        english_to_isl doc = condition_isl doc ++ [","] ++ main_isl doc) ∧
      (condition_isl doc = [] → english_to_isl doc = main_isl doc) ∧
      (condition_isl doc ≠ [] → "," ∉ condition_isl doc → "," ∉ main_isl doc →
        (english_to_isl doc).count "," = 1 ∧
        (english_to_isl doc).take (condition_isl doc).length = condition_isl doc ∧
        (english_to_isl doc).drop ((condition_isl doc).length + 1) = main_isl doc) := by
  intro doc
  refine ⟨?_, ?_, ?_⟩
  · intro h
    rw [english_to_isl_def, if_pos h]
  · intro h
    rw [english_to_isl_def, h]
    simp
  · intro h hc hm
    rw [english_to_isl_def, if_pos h]
    refine ⟨?_, ?_, ?_⟩
    · rw [List.count_append, List.count_append,
          List.count_eq_zero.mpr hc, List.count_eq_zero.mpr hm]
      simp
    · rw [List.append_assoc]
      exact List.take_left (condition_isl doc) ([","] ++ main_isl doc)
    · have hlen : (condition_isl doc).length + 1 = (condition_isl doc ++ [","]).length := by
        simp
      rw [hlen]
      exact List.drop_left (condition_isl doc ++ [","]) (main_isl doc)

/-- Closed instantiation of english_to_isl_separator on the sentence
if it rains , I will stay home. -/
theorem english_to_isl_separator_witness :
    (english_to_isl docIfRain).count "," = 1 ∧
    (english_to_isl docIfRain).take (condition_isl docIfRain).length = condition_isl docIfRain ∧
    (english_to_isl docIfRain).drop ((condition_isl docIfRain).length + 1) = main_isl docIfRain :=
  (english_to_isl_separator docIfRain).2.2 (by decide) (by decide) (by decide)

/-- C6: split_clauses produces a strict partition of the sentence positions
(every position lies in exactly one of the two sets); running the claiming
loop over the positions in any order yields the same pair of sets; and along
any prefix of the loop the condition set only grows while the main set only
shrinks, so a claimed token is never re-added to the main set. -/
theorem split_clauses_partition :
    ∀ doc : List SToken,
      (∀ j : Nat, j < doc.length →
        ((j ∈ (split_clauses_sets doc).1 ↔ j ∉ (split_clauses_sets doc).2) ∧
         (j ∈ (split_clauses_sets doc).1 ∨ j ∈ (split_clauses_sets doc).2))) ∧
      (∀ l : List Nat, (List.range doc.length).Perm l →
        l.foldl (split_step doc) (∅, Finset.range doc.length) = split_clauses_sets doc) ∧
      (∀ l1 l2 : List Nat,
        (l1.foldl (split_step doc) (∅, Finset.range doc.length)).1 ⊆
          ((l1 ++ l2).foldl (split_step doc) (∅, Finset.range doc.length)).1 ∧
        ((l1 ++ l2).foldl (split_step doc) (∅, Finset.range doc.length)).2 ⊆
          (l1.foldl (split_step doc) (∅, Finset.range doc.length)).2) := by
  intro doc
  have hfold : split_clauses_sets doc =
      (claimed_union doc (List.range doc.length),
       Finset.range doc.length \ claimed_union doc (List.range doc.length)) := by
    unfold split_clauses_sets
    rw [split_foldl_eq]
    simp
  refine ⟨?_, ?_, ?_⟩
  · intro j hj
    rw [hfold]
    constructor
    · simp only [Finset.mem_sdiff, Finset.mem_range]
      constructor
      · intro hJ hK
        exact hK.2 hJ
      · intro hK
        by_contra hJ
        exact hK ⟨hj, hJ⟩
    · by_cases hJ : j ∈ claimed_union doc (List.range doc.length)
      · exact Or.inl hJ
      · exact Or.inr (by simp [Finset.mem_sdiff, Finset.mem_range, hj, hJ])
  · intro l hperm
    rw [split_foldl_eq, hfold, claimed_union_perm doc hperm]
    simp
  · intro l1 l2
    rw [split_foldl_eq, split_foldl_eq, claimed_union_append]
    constructor
    · simp only [Finset.empty_union]
      exact Finset.subset_union_left
    · exact Finset.sdiff_subset_sdiff (Finset.Subset.refl _) Finset.subset_union_left

/-- Closed instantiation of split_clauses_partition: membership of position 0
of the two-token advcl sentence, and loop-order independence for the reversed
processing order. -/
theorem split_clauses_partition_witness :
    ((0 ∈ (split_clauses_sets docAdvclEmpty).1 ↔ 0 ∉ (split_clauses_sets docAdvclEmpty).2) ∧
     (0 ∈ (split_clauses_sets docAdvclEmpty).1 ∨ 0 ∈ (split_clauses_sets docAdvclEmpty).2)) ∧
    [1, 0].foldl (split_step docAdvclEmpty) (∅, Finset.range docAdvclEmpty.length) =
      split_clauses_sets docAdvclEmpty :=
  ⟨(split_clauses_partition docAdvclEmpty).1 0 (by decide),
   (split_clauses_partition docAdvclEmpty).2.1 [1, 0] (by decide)⟩

/-- Asset directory of main.py line 199. -/
def ASSET_DIR : String := "./assets"

/-- Asset file path for a name: os.path.join(ASSET_DIR, name + ".mp4"). -/
def assetPath (name : String) : String := ASSET_DIR ++ "/" ++ name ++ ".mp4"

/-- Word display duration of main.py line 200. -/
def DISPLAY_TIME_WORD : ℚ := 5 / 2

/-- Letter display duration of main.py line 201. -/
def DISPLAY_TIME_LETTER : ℚ := 4 / 5

/-- Letter fallback of isl_tokens_to_clips (main.py lines 213-219) over a
character list: one descriptor per alphabetic character whose uppercased
letter asset exists, in original character order.  Char.isAlpha embeds the
Python str.isalpha test, which agrees with it on the ASCII tokens this
program produces. -/
def letter_clips_chars (ex : String → Bool) (chars : List Char) : List (String × ℚ) :=
  chars.filterMap (fun ch =>
    if ch.isAlpha then
      if ex (assetPath (Char.toUpper ch).toString) then
        some (assetPath (Char.toUpper ch).toString, DISPLAY_TIME_LETTER)
      else none
    else none)

/-- Letter fallback applied to the characters of a token. -/
def letter_clips (ex : String → Bool) (token : String) : List (String × ℚ) :=
  letter_clips_chars ex token.data

/-- isl_tokens_to_clips (main.py lines 204-220).  The parameter ex abstracts
os.path.exists; a VideoFileClip with_duration value is modelled by the pair
of its path and its display duration. -/
def isl_tokens_to_clips (ex : String → Bool) (isl_tokens : List String) : List (String × ℚ) :=
  isl_tokens.foldl (fun clips token0 =>
    let token := token0.lower
    if ex (assetPath token) then clips ++ [(assetPath token, DISPLAY_TIME_WORD)]
    else clips ++ letter_clips ex token) []

/-- Per-token view of the resolver loop body. -/
def resolve_token (ex : String → Bool) (token0 : String) : List (String × ℚ) :=
  let token := token0.lower
  if ex (assetPath token) then [(assetPath token, DISPLAY_TIME_WORD)]
  else letter_clips ex token

lemma isl_tokens_to_clips_foldl (ex : String → Bool) :
    ∀ (toks : List String) (acc : List (String × ℚ)),
      toks.foldl (fun clips token0 =>
        let token := token0.lower
        if ex (assetPath token) then clips ++ [(assetPath token, DISPLAY_TIME_WORD)]
        else clips ++ letter_clips ex token) acc =
      acc ++ toks.flatMap (resolve_token ex) := by
  intro toks
  induction toks with
  | nil => intro acc; simp
  | cons t ts ih =>
    intro acc
    rw [List.foldl_cons, List.flatMap_cons]
    have hstep :
        (let token := t.lower
         if ex (assetPath token) then acc ++ [(assetPath token, DISPLAY_TIME_WORD)]
         else acc ++ letter_clips ex token) = acc ++ resolve_token ex t := by
      unfold resolve_token
      dsimp only
      split_ifs <;> rfl
    rw [hstep, ih, List.append_assoc]

/-- C4: the resolver processes tokens independently and in order; a token
with a whole-word asset (lowercased lookup) yields exactly one descriptor
with the word display duration; otherwise it yields the per-letter fallback,
which skips non-alphabetic characters and letters without an asset, keeping
character order; in particular the separator token resolves to nothing when
it has no word asset, and no failure is signalled anywhere. -/
theorem isl_tokens_to_clips_spec :
    (∀ ex : String → Bool, ∀ toks : List String,
      isl_tokens_to_clips ex toks = toks.flatMap (resolve_token ex)) ∧
    (∀ ex : String → Bool, ∀ tok : String, ex (assetPath tok.lower) = true →
      resolve_token ex tok = [(assetPath tok.lower, DISPLAY_TIME_WORD)]) ∧
    (∀ ex : String → Bool, ∀ tok : String, ex (assetPath tok.lower) = false →
      resolve_token ex tok = letter_clips ex tok.lower) ∧
    (∀ ex : String → Bool, ∀ ch : Char, ch.isAlpha = false →
      ∀ pre post : List Char,
        letter_clips_chars ex (pre ++ ch :: post) = letter_clips_chars ex (pre ++ post)) ∧
    (∀ ex : String → Bool, ∀ ch : Char, ch.isAlpha = true →
      ex (assetPath (Char.toUpper ch).toString) = false →
      ∀ pre post : List Char,
        letter_clips_chars ex (pre ++ ch :: post) = letter_clips_chars ex (pre ++ post)) ∧
    (∀ ex : String → Bool, ex (assetPath ",") = false → resolve_token ex "," = []) := by
  refine ⟨?_, ?_, ?_, ?_, ?_, ?_⟩
  · intro ex toks
    unfold isl_tokens_to_clips
    rw [isl_tokens_to_clips_foldl]
    simp
  · intro ex tok h
    unfold resolve_token
    rw [if_pos h]
  · intro ex tok h
    unfold resolve_token
    dsimp only
    rw [if_neg (by simp [h])]
  · intro ex ch h pre post
    unfold letter_clips_chars
    rw [List.filterMap_append, List.filterMap_append, List.filterMap_cons]
    simp [h]
  · intro ex ch h hx pre post
    unfold letter_clips_chars
    rw [List.filterMap_append, List.filterMap_append, List.filterMap_cons]
    simp [h, hx]
  · intro ex h
    unfold resolve_token
    dsimp only
    rw [if_neg (by simp [show String.lower "," = "," from rfl, h])]
    rfl

/-- Concrete asset store holding one word clip and one letter clip. -/
def ex0 : String → Bool :=
  fun s => s == assetPath "hello" || s == assetPath "A"

/-- Closed instantiation of isl_tokens_to_clips_spec on the store ex0. -/
theorem isl_tokens_to_clips_spec_witness :
    resolve_token ex0 "HELLO" = [(assetPath "HELLO".lower, DISPLAY_TIME_WORD)] ∧
    resolve_token ex0 "," = [] :=
  ⟨isl_tokens_to_clips_spec.2.1 ex0 "HELLO" (by decide),
   isl_tokens_to_clips_spec.2.2.2.2.2 ex0 (by decide)⟩

/-- get_video_duration (realtime.py lines 23-36).  The probing effects are
abstracted: fsExists is os.path.exists, openOk is false when reading the
file raises (the except branch), fps and frame_count are the two properties
read from the capture.  A missing file, a raising probe, and a
non-positive fps all yield duration 0. -/
def get_video_duration (fsExists openOk : String → Bool) (fps : String → ℚ)
    (frame_count : String → Nat) (path : String) : ℚ :=
  if fsExists path = false then 0
  else if openOk path = false then 0
  else if 0 < fps path then (frame_count path : ℚ) / fps path else 0

/-- The queueing loop of _run_isl_conversion (realtime.py lines 252-255):
each clip path is probed, and only paths with strictly positive duration are
put on the video queue, paired with that duration. -/
def queue_clip_descriptors (dur : String → ℚ) (clip_paths : List String) :
    List (String × ℚ) :=
  clip_paths.filterMap (fun path =>
    if 0 < dur path then some (path, dur path) else none)

/-- C10: every descriptor put on the video queue has strictly positive
duration; a path whose probed duration is 0 is skipped and never delivered;
and get_video_duration returns 0 for a missing file, for a raising probe,
and for a non-positive fps. -/
theorem queue_clip_descriptors_positive :
    (∀ dur : String → ℚ, ∀ clip_paths : List String, ∀ p : String, ∀ d : ℚ,
      (p, d) ∈ queue_clip_descriptors dur clip_paths → 0 < d ∧ d = dur p) ∧
    (∀ dur : String → ℚ, ∀ clip_paths : List String, ∀ p : String,
      dur p = 0 → ∀ d : ℚ, (p, d) ∉ queue_clip_descriptors dur clip_paths) ∧
    (∀ fsExists openOk : String → Bool, ∀ fps : String → ℚ,
      ∀ frame_count : String → Nat, ∀ path : String,
      fsExists path = false →
      get_video_duration fsExists openOk fps frame_count path = 0) ∧
    (∀ fsExists openOk : String → Bool, ∀ fps : String → ℚ,
      ∀ frame_count : String → Nat, ∀ path : String,
      openOk path = false →
      get_video_duration fsExists openOk fps frame_count path = 0) ∧
    (∀ fsExists openOk : String → Bool, ∀ fps : String → ℚ,
      ∀ frame_count : String → Nat, ∀ path : String,
      fps path ≤ 0 →
      get_video_duration fsExists openOk fps frame_count path = 0) := by
  have hmem : ∀ (dur : String → ℚ) (clip_paths : List String) (p : String) (d : ℚ),
      (p, d) ∈ queue_clip_descriptors dur clip_paths → 0 < d ∧ d = dur p := by
    intro dur clip_paths p d hpd
    unfold queue_clip_descriptors at hpd
    rcases List.mem_filterMap.mp hpd with ⟨a, _, ha⟩
    by_cases h : 0 < dur a
    · rw [if_pos h] at ha
      injection ha with ha2
      injection ha2 with hpa hda
      subst hpa
      subst hda
      exact ⟨h, rfl⟩
    · rw [if_neg h] at ha
      cases ha
  refine ⟨hmem, ?_, ?_, ?_, ?_⟩
  · intro dur clip_paths p hz d hpd
    have := (hmem dur clip_paths p d hpd).1
    rw [(hmem dur clip_paths p d hpd).2, hz] at this
    exact lt_irrefl 0 this
  · intro fsE oK fps fc path h
    unfold get_video_duration
    rw [if_pos h]
  · intro fsE oK fps fc path h
    unfold get_video_duration
    by_cases h1 : fsE path = false
    · rw [if_pos h1]
    · rw [if_neg h1, if_pos h]
  · intro fsE oK fps fc path h
    unfold get_video_duration
    by_cases h1 : fsE path = false
    · rw [if_pos h1]
    · rw [if_neg h1]
      by_cases h2 : oK path = false
      · rw [if_pos h2]
      · rw [if_neg h2, if_neg (not_lt.mpr h)]

/-- Concrete probe data for the closed instantiation: one good clip and one
zero-fps clip. -/
def dur0 : String → ℚ := fun s => if s == "a.mp4" then 2 else 0

/-- Closed instantiation of queue_clip_descriptors_positive. -/
theorem queue_clip_descriptors_positive_witness :
    (0 < (2 : ℚ) ∧ (2 : ℚ) = dur0 "a.mp4") ∧
    ("b.mp4", (0 : ℚ)) ∉ queue_clip_descriptors dur0 ["a.mp4", "b.mp4"] :=
  ⟨queue_clip_descriptors_positive.1 dur0 ["a.mp4", "b.mp4"] "a.mp4" 2 (by decide),
   queue_clip_descriptors_positive.2.1 dur0 ["a.mp4", "b.mp4"] "b.mp4" (by decide) 0⟩

/-- One event observed by the conversion worker when polling the text queue
(realtime.py lines 228-233): a timeout (queue.Empty after the one second
wait, line 230), a queued transcript, or the None sentinel (line 231). -/
inductive QEvent where
  | timeout
  | item (s : String)
  | sentinel
deriving DecidableEq, Repr

/-- The transcript carried by an item event. -/
def QEvent.itemOf : QEvent → Option String
  | QEvent.item s => some s
  | _ => none

/-- Whether the event is the sentinel. -/
def QEvent.isSentinel : QEvent → Bool
  | QEvent.sentinel => true
  | _ => false

/-- _run_isl_conversion (realtime.py lines 224-261) over a finite schedule of
text queue events.  The per-transcript body (conversion, observer callbacks,
clip resolution and queueing, lines 234-256) is abstracted as convert, which
either returns the descriptors put on the video queue or raises; the except
branch at lines 260-261 turns a raise into a log line, after which the loop
continues with the next event. -/
def run_isl_conversion (convert : String → Except String (List (String × ℚ))) :
    List QEvent → List (String × ℚ)
  | [] => []
  | QEvent.timeout :: rest => run_isl_conversion convert rest
  | QEvent.sentinel :: _ => []
  | QEvent.item s :: rest =>
      match convert s with
      | Except.ok clips => clips ++ run_isl_conversion convert rest
      | Except.error _ => run_isl_conversion convert rest

/-- Descriptors produced by one transcript, empty when conversion raises. -/
def okClips (convert : String → Except String (List (String × ℚ))) (s : String) :
    List (String × ℚ) :=
  match convert s with
  | Except.ok clips => clips
  | Except.error _ => []

/-- C7: an exception raised while processing one transcript is caught inside
the worker loop, so the worker produces nothing for that transcript and
continues exactly as if the remaining schedule were processed alone; in
general the worker emits the successful descriptors of every item before the
first sentinel, whatever failures occur in between. -/
theorem run_isl_conversion_resilient :
    (∀ convert : String → Except String (List (String × ℚ)),
      ∀ s e : String, ∀ rest : List QEvent, convert s = Except.error e →
        run_isl_conversion convert (QEvent.item s :: rest) =
          run_isl_conversion convert rest) ∧
    (∀ convert : String → Except String (List (String × ℚ)), ∀ evs : List QEvent,
      run_isl_conversion convert evs =
        ((evs.takeWhile (fun e => !e.isSentinel)).filterMap QEvent.itemOf).flatMap
          (okClips convert)) := by
  constructor
  · intro convert s e rest h
    have hu : run_isl_conversion convert (QEvent.item s :: rest) =
        match convert s with
        | Except.ok clips => clips ++ run_isl_conversion convert rest
        | Except.error _ => run_isl_conversion convert rest := rfl
    rw [hu, h]
  · intro convert evs
    induction evs with
    | nil => rfl
    | cons ev rest ih =>
      cases ev with
      | timeout =>
        rw [show run_isl_conversion convert (QEvent.timeout :: rest) =
              run_isl_conversion convert rest from rfl, ih]
        rfl
      | sentinel => rfl
      | item s =>
        cases h : convert s with
        | ok clips =>
          unfold run_isl_conversion
          rw [h, ih]
          simp [QEvent.itemOf, QEvent.isSentinel, List.takeWhile, okClips, h]
        | error e =>
          unfold run_isl_conversion
          rw [h, ih]
          simp [QEvent.itemOf, QEvent.isSentinel, List.takeWhile, okClips, h]

/-- Concrete conversion function failing on one transcript. -/
def convert0 : String → Except String (List (String × ℚ)) :=
  fun s => if s == "bad" then Except.error "boom" else Except.ok [(s, 1)]

/-- Closed instantiation of run_isl_conversion_resilient: the failing
transcript is skipped and the next queued transcript is still processed. -/
theorem run_isl_conversion_resilient_witness :
    run_isl_conversion convert0 [QEvent.item "bad", QEvent.item "b"] =
      run_isl_conversion convert0 [QEvent.item "b"] :=
  run_isl_conversion_resilient.1 convert0 "bad" "boom" [QEvent.item "b"] rfl

/-- Capacity of the bounded video queue (realtime.py line 154). -/
def VIDEO_QUEUE_MAXSIZE : Nat := 10

/-- queue.Queue.put called without a timeout: it completes at once when the
queue has a free slot and otherwise blocks the caller until a consumer
drains one; none models the blocked call, which reaches no completed state
without consumer action. -/
def queue_put {α : Type} (maxsize : Nat) (q : List α) (x : α) : Option (List α) :=
  if q.length < maxsize then some (q ++ [x]) else none

/-- State of the conversion worker inside the queueing loop of
_run_isl_conversion (realtime.py lines 252-255): the cancellation flag, the
content of the bounded video queue (none is the sentinel), and the
descriptors still to be put. -/
structure ConvPutState where
  stop_event : Bool
  video_queue : List (Option (String × ℚ))
  pending : List (String × ℚ)
deriving DecidableEq, Repr

/-- One attempt of the worker to advance: the call video_queue.put at line
255 carries no timeout and consults nothing besides the queue, so with a
full queue the worker has no enabled transition, whatever the value of the
cancellation flag. -/
def conv_put_step (s : ConvPutState) : Option ConvPutState :=
  match s.pending with
  | [] => some s
  | d :: rest =>
      match queue_put VIDEO_QUEUE_MAXSIZE s.video_queue (some d) with
      | some q2 => some { s with video_queue := q2, pending := rest }
      | none => none

/-- A video queue holding its full capacity of descriptors. -/
def fullVideoQueue : List (Option (String × ℚ)) :=
  List.replicate VIDEO_QUEUE_MAXSIZE (some ("x.mp4", 1))

/-- C8 evidence: with the video queue full, the conversion worker blocked in
put cannot advance whether or not the cancellation flag is set (the put at
line 255 has no timeout and never rechecks the flag), and the sentinel put
executed by stop itself (line 179) blocks on the same full queue, so the
worker does not exit within a bounded wait interval. -/
theorem stop_blocked_on_full_queue :
    conv_put_step ⟨true, fullVideoQueue, [("y.mp4", 1)]⟩ = none ∧
    conv_put_step ⟨false, fullVideoQueue, [("y.mp4", 1)]⟩ = none ∧
    queue_put VIDEO_QUEUE_MAXSIZE fullVideoQueue none = none := by
  exact ⟨rfl, rfl, rfl⟩

/-- Lifecycle state of RealtimeTranslator: the cancellation flag and the
number of live worker threads recorded in _threads (realtime.py lines
151-173). -/
structure TranslatorLifecycle where
  stop_event : Bool
  threads : Nat
deriving DecidableEq, Repr

/-- The state established by __init__ (realtime.py lines 152-160). -/
def translator_init : TranslatorLifecycle := ⟨false, 0⟩

/-- start (realtime.py lines 162-173): clears the cancellation flag and
unconditionally spawns and records a speech thread and a conversion thread;
the method contains no check that a session is already running. -/
def translator_start (s : TranslatorLifecycle) : TranslatorLifecycle :=
  { s with stop_event := false, threads := s.threads + 2 }

/-- C9 evidence: calling start twice is not rejected; the second call spawns
two further worker threads sharing the same queues, leaving four live
workers, so two sessions are active at once. -/
theorem start_has_no_running_guard :
    translator_start translator_init = ⟨false, 2⟩ ∧
    translator_start (translator_start translator_init) = ⟨false, 4⟩ ∧
    (∀ s : TranslatorLifecycle, (translator_start s).threads = s.threads + 2) :=
  ⟨rfl, rfl, fun _ => rfl⟩
